import Mathlib

/-!
Verification of the prompt-assembly and response-shaping logic of
`src/Backend/src/server.js` (a minimal Express gateway to an LLM
completion API), via a shallow embedding of the relevant JavaScript
semantics (JSON values, truthiness, `Array.prototype.join`
stringification, optional chaining, `||` / `??` operators, Joi body
validation) into Lean.
-/

namespace Server

/-- JSON values, as produced by `JSON.parse`.  Numbers are modelled as
integers (the data files at issue use none, and no claim depends on
float formatting). -/
inductive Json where
  | null : Json
  | bool : Bool → Json
  | num : Int → Json
  | str : String → Json
  | arr : List Json → Json
  | obj : List (String × Json) → Json

/-- JavaScript truthiness of a JSON value (`filter(Boolean)`, `||`). -/
def jsTruthy : Json → Bool
  | .null => false
  | .bool b => b
  | .num n => n != 0
  | .str s => s != ""
  | .arr _ => true
  | .obj _ => true

/-- The JS `Array.prototype.join` with separator `sep`: elements already
converted to strings.  JS semantics: empty list gives `""`, a single
element is returned unchanged. -/
def joinSep (sep : String) : List String → String
  | [] => ""
  | [x] => x
  | x :: xs => x ++ sep ++ joinSep sep xs

mutual

/-- JavaScript `String(v)` conversion of a JSON value. -/
def jsToString : Json → String
  | .null => "null"
  | .bool b => if b then "true" else "false"
  | .num n => toString n
  | .str s => s
  | .arr xs => jsArrToString xs
  | .obj _ => "[object Object]"

/-- The JS `Array.prototype.toString` = `join(",")`, where `null` elements
become the empty string. -/
def jsArrToString : List Json → String
  | [] => ""
  | [.null] => ""
  | [x] => jsToString x
  | .null :: xs => "," ++ jsArrToString xs
  | x :: xs => jsToString x ++ "," ++ jsArrToString xs

end

/-- Property access `v[name]`: throws a `TypeError` on `null` (modelled
as `Except.error ()`), looks the key up on an object (an absent key is
`undefined`, modelled `none`), and yields `undefined` on every other
JSON value (primitives have no such own property). -/
def jsProp : Json → String → Except Unit (Option Json)
  | .null, _ => .error ()
  | .obj fields, name => .ok (fields.lookup name)
  | _, _ => .ok none

/-- JavaScript `v || d` where `v` may be `undefined` (`none`). -/
def jsOr (v : Option Json) (d : Json) : Json :=
  match v with
  | some j => if jsTruthy j then j else d
  | none => d

/-! ## Prompt Assembler (`getChatResponse`, server.js lines 73-96)

The two resource files are modelled by their load result: `none` when
the `fs.readFile` or the `JSON.parse` inside the `try` block threw
(both are caught, lines 80-82 / 90-92), `some j` when parsing produced
the JSON value `j`. -/

/-- server.js line 89: `JSON.parse(guardrailRaw).prompt || ''`, inside a
`try` whose `catch` sets `guardrailPrompt = ''`.  A `TypeError` from
accessing `.prompt` on `null` is caught by that same `try`. -/
def guardrailOf : Option Json → Json
  | none => .str ""
  | some j =>
    match jsProp j "prompt" with
    | .error _ => .str ""
    | .ok v => jsOr v (.str "")

/-- server.js line 79 result: a failed load leaves `contextArr = []`. -/
def contextArrOf (cf : Option Json) : Json :=
  cf.getD (.arr [])

/-- How `Array.prototype.join` renders one mapped element: `undefined`
(`none`) and `null` become `""`, anything else is stringified. -/
def joinedElemString : Option Json → String
  | none => ""
  | some .null => ""
  | some j => jsToString j

/-- server.js line 95: `contextArr.map(c => c.info)`.  Throws a
`TypeError` when `contextArr` is not an array (`.map` is not a
function) or when an element is `null` (property access on `null`);
this line sits OUTSIDE the `try`/`catch` of the loader. -/
def mapInfo : Json → Except Unit (List (Option Json))
  | .arr xs => xs.mapM (fun x => jsProp x "info")
  | _ => .error ()

/-- server.js line 95: `contextArr.map(c => c.info).join('\n')`. -/
def contextStringOf (cf : Option Json) : Except Unit String := do
  let infos ← mapInfo (contextArrOf cf)
  pure (joinSep "\n" (infos.map joinedElemString))

/-- The separator of server.js line 96. -/
def SEPARATOR : String := "\n---\n"

/-- server.js lines 94-96: the composite input
`[guardrailPrompt, contextString, prompt].filter(Boolean).join('\n---\n')`.
`guardrailPrompt` is a JSON value (it is whatever truthy value the
guardrail file's `prompt` field held, or `''`); `contextString` and
`prompt` are strings. -/
def fullPromptOf (cf gf : Option Json) (prompt : String) : Except Unit String := do
  let contextString ← contextStringOf cf
  let members : List Json := [guardrailOf gf, .str contextString, .str prompt]
  pure (joinSep SEPARATOR ((members.filter jsTruthy).map jsToString))

/-! ## Completion Invoker (`getChatResponse`, server.js lines 98-112) -/

/-- One entry of `MODEL_PRESETS` (server.js lines 32-48).  The sampling
temperature is modelled as a rational. -/
structure ModelPreset where
  model : String
  temperature : ℚ
  max_output_tokens : Nat
deriving DecidableEq

/-- server.js lines 32-48: the static preset mapping. -/
def MODEL_PRESETS : List (String × ModelPreset) :=
  [("gpt-5", ⟨"gpt-5", 7/10, 1024⟩),
   ("gpt-5-mini", ⟨"gpt-5-mini", 1/2, 768⟩),
   ("gpt-5-chat-latest", ⟨"gpt-5-chat-latest", 7/10, 1024⟩)]

/-- server.js line 99: `const model = 'gpt-5';` — a constant, not taken
from the request. -/
def selectedModelName : String := "gpt-5"

/-- server.js line 100: `const preset = MODEL_PRESETS[model];`. -/
def selectedPreset : ModelPreset :=
  (MODEL_PRESETS.lookup selectedModelName).getD ⟨"", 0, 0⟩

/-- One element of a message's `content` array (server.js line 101). -/
structure MessageContent where
  type : String
  text : String
deriving DecidableEq

/-- One input message (server.js line 101). -/
structure InputMessage where
  role : String
  content : List MessageContent
deriving DecidableEq

/-- The payload of `client.responses.create` (server.js lines 103-108). -/
structure ApiRequest where
  model : String
  temperature : ℚ
  max_output_tokens : Nat
  input : List InputMessage
deriving DecidableEq

/-- server.js lines 99-108: the request assembled for the completion
call.  Fails (propagating the `TypeError`) exactly when the composite
prompt assembly of line 95 fails. -/
def buildRequest (role prompt : String) (cf gf : Option Json) : Except Unit ApiRequest := do
  let fp ← fullPromptOf cf gf prompt
  pure { model := selectedPreset.model
         temperature := selectedPreset.temperature
         max_output_tokens := selectedPreset.max_output_tokens
         input := [{ role := role, content := [{ type := "text", text := fp }] }] }

/-- One content fragment of a response output item; `text` may be
absent (`undefined`). -/
structure ContentFragment where
  text : Option String
deriving DecidableEq

/-- One item of the response's `output` array; `content` may be absent. -/
structure OutputItem where
  content : Option (List ContentFragment)
deriving DecidableEq

/-- A successful completion-service response: `output_text` may be
absent or null (`none`), `output` likewise. -/
structure ApiResponse where
  output_text : Option String
  output : Option (List OutputItem)
deriving DecidableEq

/-- server.js line 109, inner map:
`o.content?.map(c => c.text).join('')` — `undefined` short-circuits to
`undefined` (which the outer `join('\n')` renders as `""`); otherwise
each fragment contributes `c.text` (rendered `""` when absent). -/
def itemText (o : OutputItem) : String :=
  match o.content with
  | none => ""
  | some frags => joinSep "" (frags.map (fun c => c.text.getD ""))

/-- server.js line 109:
`r.output_text ?? (r.output?.map(o => ...).join('\n') || '')`. -/
def extractText (r : ApiResponse) : String :=
  match r.output_text with
  | some s => s
  | none =>
    match r.output with
    | none => ""
    | some items => joinSep "\n" (items.map itemText)

/-- The caught exception of server.js line 110, abstracted to the two
message fields the handler reads: `e?.error?.message` (collapsed to
`none` when `e.error` or its `message` is absent) and `e.message`. -/
structure JsError where
  errorMessage : Option String
  message : Option String
deriving DecidableEq

/-- JavaScript `v || d` for a possibly-absent string (an empty string
is falsy). -/
def jsStrOr (v : Option String) (d : String) : String :=
  match v with
  | some s => if s == "" then d else s
  | none => d

/-- server.js line 111: `e?.error?.message || e.message || 'Unknown error'`. -/
def openaiErrMsg (e : JsError) : String :=
  jsStrOr e.errorMessage (jsStrOr e.message "Unknown error")

/-- server.js line 111: the returned placeholder string. -/
def errorPlaceholder (e : JsError) : String :=
  "[OpenAI error: " ++ openaiErrMsg e ++ "]"

/-- The outcome of the remote completion call (server.js line 103),
an input of the model: `Except.error e` when `await client.responses.create`
throws, `Except.ok r` when it resolves with response `r`. -/
abbrev ApiOutcome := Except JsError ApiResponse

/-- server.js lines 73-113, `getChatResponse(role, prompt)` as a whole,
parameterised by the two file-load results and the remote outcome.
`Except.error ()` models the function throwing (rejecting). -/
def getChatResponse (role prompt : String) (cf gf : Option Json)
    (api : ApiOutcome) : Except Unit String := do
  let _req ← buildRequest role prompt cf gf
  match api with
  | .ok r => pure (extractText r)
  | .error e => pure (errorPlaceholder e)

/-! ## Request validation and the `/v1/chat` handler (server.js 67-70, 126-136)

The request body is a parsed JSON object, modelled as its field list.
`bodySchema` is `Joi.object({role: Joi.string().required(), prompt:
Joi.string().required()})`, validated with `abortEarly: false` and
`stripUnknown: true`: a `Joi.string()` rejects non-strings and (by Joi
default) the empty string; `error.message` joins all collected
messages with `". "`. -/

/-- The Joi verdict on one required-string field: the list of error
messages it contributes (empty when valid). -/
def fieldErrors (body : List (String × Json)) (name : String) : List String :=
  match body.lookup name with
  | none => ["\"" ++ name ++ "\" is required"]
  | some (.str "") => ["\"" ++ name ++ "\" is not allowed to be empty"]
  | some (.str _) => []
  | some _ => ["\"" ++ name ++ "\" must be a string"]

/-- All validation errors of `bodySchema.validate(req.body,
{abortEarly: false, ...})`, in schema key order. -/
def validationErrors (body : List (String × Json)) : List String :=
  fieldErrors body "role" ++ fieldErrors body "prompt"

/-- The validated value of one field (meaningful only when
`fieldErrors` is empty). -/
def validatedField (body : List (String × Json)) (name : String) : String :=
  match body.lookup name with
  | some (.str s) => s
  | _ => ""

/-- An HTTP response: status code and JSON body. -/
structure HttpResponse where
  status : Nat
  body : Json

/-- server.js line 129: the 400 body
`{ok: false, error: {type: 'BadRequest', message}}`. -/
def badRequestBody (message : String) : Json :=
  .obj [("ok", .bool false),
        ("error", .obj [("type", .str "BadRequest"), ("message", .str message)])]

/-- server.js line 135: the 200 body
`{ok: true, model: 'gpt-5', output_text, usage: null, raw: null}`. -/
def chatOkBody (output_text : String) : Json :=
  .obj [("ok", .bool true), ("model", .str "gpt-5"),
        ("output_text", .str output_text), ("usage", .null), ("raw", .null)]

/-- server.js lines 126-136: the `POST /v1/chat` handler, parameterised
like `getChatResponse`.  `Except.error ()` models the async handler
rejecting (no response is produced by the route itself). -/
def postChat (body : List (String × Json)) (cf gf : Option Json)
    (api : ApiOutcome) : Except Unit HttpResponse :=
  let errs := validationErrors body
  if errs.isEmpty then do
    let t ← getChatResponse (validatedField body "role") (validatedField body "prompt") cf gf api
    pure ⟨200, chatOkBody t⟩
  else
    .ok ⟨400, badRequestBody (joinSep ". " errs)⟩

/-! ## Definitions taken from the specification's wording

These restate, in the spec's words rather than the code's, the
composite-join and the text-extraction contracts; the corresponding
claims compare them with the embedded code. -/

/-- Spec §4.1 step 4: "taking the non-empty members, in this order:
guardrail directive, context block, caller prompt — and joining them
with the separator"; the members are handed in as plain strings. -/
def specJoinNonEmpty (parts : List String) : String :=
  joinSep SEPARATOR (parts.filter (· != ""))

/-- Spec §4.2: "each item's content fragments joined with no
separator" (an absent content list has no fragments). -/
def specItemText (o : OutputItem) : String :=
  joinSep "" ((o.content.getD []).map (fun c => c.text.getD ""))

/-- Whether a JSON value is `null`. -/
def isNull : Json → Bool
  | .null => true
  | _ => false

/-- The context-file load results on which line 95 does NOT throw: a
failed load (`contextArr = []`) or a parsed array without `null`
elements. -/
def contextWF : Option Json → Bool
  | none => true
  | some (.arr xs) => xs.all (fun x => !(isNull x))
  | some _ => false

/-- Whether a parsed guardrail value has a falsy `prompt` field
(absent, `null`, `""`, `false`, or `0`). -/
def falsyPromptField (j : Json) : Bool :=
  match jsProp j "prompt" with
  | .ok none => true
  | .ok (some v) => !(jsTruthy v)
  | .error _ => false

/-- Success of an `Except` computation, used to state that a modelled piece of code does
not throw. -/
def exceptIsOk {ε α : Type} : Except ε α → Bool
  | .ok _ => true
  | .error _ => false

/-! ## Helper lemmas -/

/-- Mapping `Json.str` over strings, filtering by truthiness and
stringifying back is exactly filtering out the empty strings. -/
theorem map_str_filter_truthy (parts : List String) :
    ((parts.map Json.str).filter jsTruthy).map jsToString = parts.filter (· != "") := by
  induction parts with
  | nil => rfl
  | cons x xs ih =>
    by_cases hx : x = ""
    · subst hx
      simpa [jsTruthy] using ih
    · simp [jsTruthy, jsToString, hx, ih]

/-- Evaluating `mapInfo` on an array of one-field `info` objects extracts the
strings. -/
theorem mapInfo_info_objects (infos : List String) :
    mapInfo (.arr (infos.map (fun i => .obj [("info", .str i)])))
      = .ok (infos.map (fun i => some (.str i))) := by
  show List.mapM (fun x => jsProp x "info") (infos.map (fun i => .obj [("info", .str i)])) = _
  induction infos with
  | nil => rfl
  | cons x xs ih =>
    rw [List.map_cons, List.mapM_cons, ih]
    rfl

/-- Evaluating `contextStringOf` on an array of `info` objects joins the strings
with a newline. -/
theorem contextStringOf_info_objects (infos : List String) :
    contextStringOf (some (.arr (infos.map (fun i => .obj [("info", .str i)]))))
      = .ok (joinSep "\n" infos) := by
  simp only [contextStringOf, contextArrOf, Option.getD_some, mapInfo_info_objects]
  show Except.ok (joinSep "\n" ((infos.map (fun i => some (Json.str i))).map joinedElemString)) = _
  rw [List.map_map]
  have hfun : (joinedElemString ∘ fun i => some (Json.str i)) = id := funext fun i => rfl
  rw [hfun, List.map_id]

/-- A guardrail file holding `{"prompt": g}` for a string `g` yields
`g` itself (falsy `""` is replaced by `''`, which is the same). -/
theorem guardrailOf_prompt_str (g : String) :
    guardrailOf (some (.obj [("prompt", .str g)])) = .str g := by
  by_cases hg : g = ""
  · subst hg; rfl
  · simp [guardrailOf, jsProp, jsOr, jsTruthy, List.lookup, hg]

/-! ## Claims -/

/-- C1: for every request with prompt `p`, the Prompt Assembler builds
the composite input by joining, in this order, the guardrail
directive, the context block (all context entries' `info` fields
joined with a newline), and `p`, using the separator `"\n---\n"`,
skipping members that are empty; in particular, with context entries
`[{info:"A"},{info:"B"}]`, guardrail `"G"`, and prompt `"P"`, the
composite equals `"G\n---\nA\nB\n---\nP"`. -/
theorem composite_input_joins_guardrail_context_prompt :
    (∀ (g : String) (infos : List String) (p : String),
      fullPromptOf (some (.arr (infos.map (fun i => .obj [("info", .str i)]))))
          (some (.obj [("prompt", .str g)])) p
        = .ok (specJoinNonEmpty [g, joinSep "\n" infos, p])) ∧
    fullPromptOf (some (.arr [.obj [("info", .str "A")], .obj [("info", .str "B")]]))
        (some (.obj [("prompt", .str "G")])) "P"
      = .ok "G\n---\nA\nB\n---\nP" := by
  constructor
  · intro g infos p
    simp only [fullPromptOf, contextStringOf_info_objects, guardrailOf_prompt_str]
    show Except.ok (joinSep SEPARATOR
        ((([g, joinSep "\n" infos, p].map Json.str).filter jsTruthy).map jsToString)) = _
    rw [map_str_filter_truthy]
    rfl
  · rfl

/-- C2: for every request that passes validation, if the remote
completion call fails, `getChatResponse` returns
`"[OpenAI error: " ++ m ++ "]"` — where `m` is the error's
`error.message` when that is present and non-empty (JavaScript `||`
treats the empty string as absent), else its `message` under the same
proviso, else `"Unknown error"` — instead of raising, and the HTTP
response is still status 200 with `ok: true` and this placeholder as
`output_text`. -/
theorem upstream_failure_returns_placeholder_with_200
    (body : List (String × Json)) (cf gf : Option Json) (e : JsError) (fp : String)
    (hv : validationErrors body = [])
    (ha : fullPromptOf cf gf (validatedField body "prompt") = .ok fp) :
    getChatResponse (validatedField body "role") (validatedField body "prompt") cf gf (.error e)
        = .ok (errorPlaceholder e) ∧
    postChat body cf gf (.error e) = .ok ⟨200, chatOkBody (errorPlaceholder e)⟩ ∧
    errorPlaceholder e = "[OpenAI error: " ++ openaiErrMsg e ++ "]" ∧
    (∀ s, e.errorMessage = some s → s ≠ "" → openaiErrMsg e = s) ∧
    ((e.errorMessage = none ∨ e.errorMessage = some "") →
      ∀ s, e.message = some s → s ≠ "" → openaiErrMsg e = s) ∧
    ((e.errorMessage = none ∨ e.errorMessage = some "") →
      (e.message = none ∨ e.message = some "") → openaiErrMsg e = "Unknown error") := by
  have hresp : getChatResponse (validatedField body "role") (validatedField body "prompt")
      cf gf (.error e) = .ok (errorPlaceholder e) := by
    simp only [getChatResponse, buildRequest, ha]
    rfl
  refine ⟨hresp, ?_, rfl, ?_, ?_, ?_⟩
  · simp only [postChat, hv, List.isEmpty_nil, if_pos, hresp]
    rfl
  · intro s hs hne
    simp [openaiErrMsg, jsStrOr, hs, hne]
  · rintro (h1 | h1) s hs hne <;> simp [openaiErrMsg, jsStrOr, h1, hs, hne]
  · rintro (h1 | h1) (h2 | h2) <;> simp [openaiErrMsg, jsStrOr, h1, h2]

/-- Closed instance of C2: a validated body, well-formed (absent)
resources and a failing remote call with `e.message = "boom"` produce
a 200 response carrying the placeholder. -/
theorem upstream_failure_returns_placeholder_with_200_witness :
    postChat [("role", .str "user"), ("prompt", .str "P")] none none
        (.error ⟨none, some "boom"⟩)
      = .ok ⟨200, chatOkBody (errorPlaceholder ⟨none, some "boom"⟩)⟩ :=
  (upstream_failure_returns_placeholder_with_200
    [("role", .str "user"), ("prompt", .str "P")] none none ⟨none, some "boom"⟩ "P"
    rfl rfl).2.1

/-- C3: for every successful remote response `r`, the extracted text
equals `r.output_text` when that field is present; otherwise it equals
the concatenation over `r.output` items of each item's content
fragments' text joined with no separator, with items joined by a
newline; and when neither is available, it equals the empty string. -/
theorem extract_text_prefers_output_text (r : ApiResponse) :
    (∀ s, r.output_text = some s → extractText r = s) ∧
    (r.output_text = none → ∀ items, r.output = some items →
      extractText r = joinSep "\n" (items.map specItemText)) ∧
    (r.output_text = none → r.output = none → extractText r = "") := by
  have hitem : ∀ o : OutputItem, itemText o = specItemText o := by
    intro o
    cases o with
    | mk content => cases content <;> rfl
  refine ⟨?_, ?_, ?_⟩
  · intro s hs
    simp [extractText, hs]
  · intro h1 items h2
    have hfun : (itemText : OutputItem → String) = specItemText := funext hitem
    simp [extractText, h1, h2, hfun]
  · intro h1 h2
    simp [extractText, h1, h2]

/-- Closed instance of C3: a response with no `output_text` and two
output items (one with fragments `"x"` and an absent one, plus an item
with no content) extracts to `"x\n"`. -/
theorem extract_text_prefers_output_text_witness :
    extractText ⟨none, some [⟨some [⟨some "x"⟩, ⟨none⟩]⟩, ⟨none⟩]⟩ = "x\n" := by
  have h := (extract_text_prefers_output_text
    ⟨none, some [⟨some [⟨some "x"⟩, ⟨none⟩]⟩, ⟨none⟩]⟩).2.1 rfl _ rfl
  exact h.trans rfl

/-- C4 fails as stated: a context file whose content parses
successfully to the JSON number `42` makes the assembler throw a
`TypeError` at `contextArr.map` (server.js line 95, outside the
`try`/`catch`), so assembly does NOT complete for every parsed JSON
value. -/
theorem assembler_raises_on_nonarray_context :
    fullPromptOf (some (.num 42)) none "P" = .error () := rfl

/-- Mapping the `info` accessor with `List.mapM` succeeds exactly on lists
without `null` elements. -/
theorem mapM_info_isOk (xs : List Json) :
    exceptIsOk (List.mapM (fun x => jsProp x "info") xs)
      = xs.all (fun x => !(isNull x)) := by
  induction xs with
  | nil => rfl
  | cons x xs ih =>
    rw [List.mapM_cons, List.all_cons]
    have hx : ∀ v : Option Json, jsProp x "info" = .ok v →
        exceptIsOk (jsProp x "info" >>= fun y =>
            List.mapM (fun x => jsProp x "info") xs >>= fun ys => pure (y :: ys))
          = exceptIsOk (List.mapM (fun x => jsProp x "info") xs) := by
      intro v hv
      rw [hv]
      show exceptIsOk (List.mapM (fun x => jsProp x "info") xs >>= fun ys => pure (v :: ys)) = _
      cases hm : List.mapM (fun x => jsProp x "info") xs with
      | error e => rfl
      | ok ys => rfl
    cases x with
    | null => rfl
    | bool b => rw [hx none rfl, ih]; rfl
    | num n => rw [hx none rfl, ih]; rfl
    | str s => rw [hx none rfl, ih]; rfl
    | arr ys => rw [hx none rfl, ih]; rfl
    | obj fields => rw [hx (fields.lookup "info") rfl, ih]; rfl

/-- The context-string computation of line 95 succeeds exactly on
well-formed context-file load results. -/
theorem contextStringOf_isOk (cf : Option Json) :
    exceptIsOk (contextStringOf cf) = contextWF cf := by
  have harr : ∀ xs : List Json,
      exceptIsOk (contextStringOf (some (.arr xs))) = xs.all (fun x => !(isNull x)) := by
    intro xs
    show exceptIsOk (List.mapM (fun x => jsProp x "info") xs >>= fun infos =>
        pure (joinSep "\n" (infos.map joinedElemString))) = _
    rw [← mapM_info_isOk]
    cases hm : List.mapM (fun x => jsProp x "info") xs with
    | error e => rfl
    | ok ys => rfl
  cases cf with
  | none => rfl
  | some j => cases j with
    | arr xs => exact harr xs
    | null => rfl
    | bool b => rfl
    | num n => rfl
    | str s => rfl
    | obj fields => rfl

/-- C4 amended: read or parse failures of either resource file degrade
silently to an empty context / empty guardrail and never raise, but
assembly completes precisely when the context load failed or parsed to
an array without `null` elements; any other successfully parsed
context value (non-array, or array containing `null`) makes the
assembler throw.  The guardrail file never causes a throw. -/
theorem assembler_totality_iff_wellformed_context (cf gf : Option Json) (p : String) :
    exceptIsOk (fullPromptOf cf gf p) = contextWF cf := by
  show exceptIsOk (contextStringOf cf >>= fun contextString =>
      pure (joinSep SEPARATOR
        ((([guardrailOf gf, .str contextString, .str p]).filter jsTruthy).map jsToString))) = _
  rw [← contextStringOf_isOk]
  cases hm : contextStringOf cf with
  | error e => rfl
  | ok ctx => rfl

/-- C5: when both the context and guardrail resources are empty or
missing, the composite input equals the caller's prompt exactly. -/
theorem empty_resources_yield_identity (cf gf : Option Json) (p : String)
    (hc : cf = none ∨ cf = some (.arr []))
    (hg : gf = none ∨ gf = some (.obj []) ∨ gf = some (.obj [("prompt", .str "")])) :
    fullPromptOf cf gf p = .ok p := by
  have hjoin : joinSep SEPARATOR
      ((([Json.str "", Json.str "", Json.str p].filter jsTruthy)).map jsToString) = p := by
    by_cases hp : p = ""
    · subst hp; rfl
    · have hp' : (p != "") = true := bne_iff_ne.mpr hp
      simp [jsTruthy, jsToString, joinSep, List.filter, hp']
  rcases hc with hc | hc <;> rcases hg with hg | hg | hg <;> subst hc <;> subst hg <;>
    exact congrArg Except.ok hjoin

/-- Closed instance of C5: absent resources leave `"P"` unchanged. -/
theorem empty_resources_yield_identity_witness :
    fullPromptOf none none "P" = .ok "P" :=
  empty_resources_yield_identity none none "P" (Or.inl rfl) (Or.inl rfl)

/-- Bind of `Except` on an error. -/
theorem except_error_bind {ε α β : Type} (e : ε) (f : α → Except ε β) :
    (Except.error e >>= f) = Except.error e := rfl

/-- Bind of `Except` on a success. -/
theorem except_ok_bind {ε α β : Type} (a : α) (f : α → Except ε β) :
    (Except.ok a >>= f) = f a := rfl

/-- The `pure` of `Except` is `Except.ok`. -/
theorem except_pure {ε α : Type} (a : α) : (pure a : Except ε α) = Except.ok a := rfl

/-- The value `exceptIsOk (fullPromptOf cf gf p)` computes `contextWF cf`: the
assembler completes exactly on well-formed context-file results
(helper shared by several claims). -/
theorem fullPromptOf_isOk_eq (cf gf : Option Json) (p : String) :
    exceptIsOk (fullPromptOf cf gf p) = contextWF cf := by
  show exceptIsOk (contextStringOf cf >>= fun contextString =>
      pure (joinSep SEPARATOR
        ((([guardrailOf gf, .str contextString, .str p]).filter jsTruthy).map jsToString))) = _
  rw [← contextStringOf_isOk]
  cases hm : contextStringOf cf with
  | error e => rfl
  | ok ctx => rfl

/-- On a body with no validation errors, `postChat` runs the helper
and wraps its result in a 200 (helper shared by several claims). -/
theorem postChat_valid_eq (body : List (String × Json)) (cf gf : Option Json)
    (api : ApiOutcome) (hv : validationErrors body = []) :
    postChat body cf gf api
      = (getChatResponse (validatedField body "role") (validatedField body "prompt") cf gf api
          >>= fun t => pure ⟨200, chatOkBody t⟩) := by
  simp only [postChat, hv]
  rfl

/-- On a body with validation errors, `postChat` responds 400 (helper
shared by several claims). -/
theorem postChat_invalid_eq (body : List (String × Json)) (cf gf : Option Json)
    (api : ApiOutcome) (hv : (validationErrors body).isEmpty = false) :
    postChat body cf gf api
      = .ok ⟨400, badRequestBody (joinSep ". " (validationErrors body))⟩ := by
  simp only [postChat, hv]
  rfl

/-- When the prompt assembly succeeds, `getChatResponse` returns the
extracted text on a successful remote call and the placeholder on a
failed one (helper shared by several claims). -/
theorem getChatResponse_of_assembled (role prompt : String) (cf gf : Option Json)
    (api : ApiOutcome) (fp : String) (hfp : fullPromptOf cf gf prompt = .ok fp) :
    getChatResponse role prompt cf gf api
      = .ok (match api with
             | .ok r => extractText r
             | .error e => errorPlaceholder e) := by
  simp only [getChatResponse, buildRequest, hfp]
  cases api <;> rfl

/-- C6 fails as stated: the body `{role: "user", prompt: "hi"}` is
valid, yet when the context file parses to the JSON number `42` the
handler rejects (line 95 throws) and no 200 response is produced, even
though the remote call would have succeeded. -/
theorem valid_request_no_response_on_bad_context :
    postChat [("role", .str "user"), ("prompt", .str "hi")] (some (.num 42)) none
      (.ok ⟨some "ok", none⟩) = .error () := rfl

/-- C6 amended: for every valid request body (role and prompt
non-empty strings), provided the context resource load failed or
parsed to an array without null entries, the `/v1/chat` response has
status 200 with the `ok: true` body shape and a string `output_text` —
including when the upstream completion call fails. -/
theorem valid_request_yields_200_when_context_wellformed
    (body : List (String × Json)) (cf gf : Option Json) (api : ApiOutcome)
    (hv : validationErrors body = []) (hwf : contextWF cf = true) :
    ∃ t : String, postChat body cf gf api = .ok ⟨200, chatOkBody t⟩ := by
  have hok := fullPromptOf_isOk_eq cf gf (validatedField body "prompt")
  rw [hwf] at hok
  obtain ⟨fp, hfp⟩ : ∃ fp, fullPromptOf cf gf (validatedField body "prompt") = .ok fp := by
    cases hm : fullPromptOf cf gf (validatedField body "prompt") with
    | error e => rw [hm] at hok; exact absurd hok (by simp [exceptIsOk])
    | ok fp => exact ⟨fp, rfl⟩
  refine ⟨(match api with | .ok r => extractText r | .error e => errorPlaceholder e), ?_⟩
  rw [postChat_valid_eq body cf gf api hv,
      getChatResponse_of_assembled _ _ cf gf api fp hfp]
  rfl

/-- Closed instance of the amended C6: a valid body with absent
resources and a successful remote call yields a 200 response. -/
theorem valid_request_yields_200_when_context_wellformed_witness :
    ∃ t : String, postChat [("role", .str "user"), ("prompt", .str "P")] none none
      (.ok ⟨some "x", none⟩) = .ok ⟨200, chatOkBody t⟩ :=
  valid_request_yields_200_when_context_wellformed
    [("role", .str "user"), ("prompt", .str "P")] none none (.ok ⟨some "x", none⟩) rfl rfl

/-- C7: for every request body in which `role` or `prompt` is missing,
empty, or not a string, the handler responds 400 with
`{ok: false, error: {type: "BadRequest", message}}` where the message
joins ALL violated constraints; when both fields are absent it
mentions both. -/
theorem invalid_body_yields_400_with_all_errors
    (body : List (String × Json)) (cf gf : Option Json) (api : ApiOutcome)
    (h : validationErrors body ≠ []) :
    postChat body cf gf api
        = .ok ⟨400, badRequestBody (joinSep ". " (validationErrors body))⟩ ∧
    (body.lookup "role" = none → body.lookup "prompt" = none →
      joinSep ". " (validationErrors body)
        = "\"role\" is required. \"prompt\" is required") := by
  constructor
  · have hne : (validationErrors body).isEmpty = false := by
      cases hvl : validationErrors body with
      | nil => exact absurd hvl h
      | cons a l => rfl
    exact postChat_invalid_eq body cf gf api hne
  · intro hr hp
    simp only [validationErrors, fieldErrors, hr, hp]
    rfl

/-- Closed instance of C7: the empty body yields a 400 naming both
missing fields. -/
theorem invalid_body_yields_400_with_all_errors_witness :
    postChat [] none none (.ok ⟨some "x", none⟩)
      = .ok ⟨400, badRequestBody "\"role\" is required. \"prompt\" is required"⟩ := by
  have h := invalid_body_yields_400_with_all_errors [] none none (.ok ⟨some "x", none⟩)
    (by simp [validationErrors, fieldErrors])
  rw [h.1, h.2 rfl rfl]

/-- C8: the Completion Invoker always selects the preset named
`"gpt-5"` (model `"gpt-5"`, temperature 0.7, max_output_tokens 1024)
even though other presets exist in the static mapping, and every 200
response body is the `chatOkBody` shape, whose `model` field is the
string `"gpt-5"`. -/
theorem preset_selection_fixed_gpt5 :
    MODEL_PRESETS.lookup "gpt-5" = some ⟨"gpt-5", 7/10, 1024⟩ ∧
    selectedPreset = ⟨"gpt-5", 7/10, 1024⟩ ∧
    MODEL_PRESETS.length = 3 ∧
    (∀ (role prompt : String) (cf gf : Option Json) (req : ApiRequest),
      buildRequest role prompt cf gf = .ok req →
        req.model = "gpt-5" ∧ req.temperature = 7/10 ∧ req.max_output_tokens = 1024) ∧
    (∀ (body : List (String × Json)) (cf gf : Option Json) (api : ApiOutcome)
        (resp : HttpResponse), postChat body cf gf api = .ok resp → resp.status = 200 →
      ∃ t, resp.body = chatOkBody t) ∧
    (∀ t, jsProp (chatOkBody t) "model" = .ok (some (.str "gpt-5"))) := by
  refine ⟨rfl, rfl, rfl, ?_, ?_, fun t => rfl⟩
  · intro role prompt cf gf req h
    cases hfp : fullPromptOf cf gf prompt with
    | error e =>
      rw [show buildRequest role prompt cf gf = .error e from by
        simp only [buildRequest, hfp]; rfl] at h
      cases h
    | ok fp =>
      rw [show buildRequest role prompt cf gf
          = .ok ⟨selectedPreset.model, selectedPreset.temperature,
                 selectedPreset.max_output_tokens, [⟨role, [⟨"text", fp⟩]⟩]⟩ from by
        simp only [buildRequest, hfp]; rfl] at h
      injection h with h'
      subst h'
      exact ⟨rfl, rfl, rfl⟩
  · intro body cf gf api resp h h200
    by_cases hv : validationErrors body = []
    · rw [postChat_valid_eq body cf gf api hv] at h
      cases hg : getChatResponse (validatedField body "role") (validatedField body "prompt")
          cf gf api with
      | error e => rw [hg, except_error_bind] at h; cases h
      | ok t =>
        rw [hg, except_ok_bind, except_pure] at h
        injection h with h'
        exact ⟨t, by rw [← h']⟩
    · have hne : (validationErrors body).isEmpty = false := by
        cases hvl : validationErrors body with
        | nil => exact absurd hvl hv
        | cons a l => rfl
      rw [postChat_invalid_eq body cf gf api hne] at h
      injection h with h'
      rw [← h'] at h200
      simp at h200

/-- Closed instance of C8: the request built for a concrete valid call
carries model `"gpt-5"`. -/
theorem preset_selection_fixed_gpt5_witness :
    (ApiRequest.mk "gpt-5" (7/10) 1024 [⟨"user", [⟨"text", "P"⟩]⟩]).model = "gpt-5" :=
  (preset_selection_fixed_gpt5.2.2.2.1 "user" "P" none none
    ⟨"gpt-5", 7/10, 1024, [⟨"user", [⟨"text", "P"⟩]⟩]⟩ rfl).1

/-- C9: two valid requests with the same prompt and the same resource
files but different roles produce the same assembled composite input;
the role reappears only as the `role` field of the single input
message.  Formally, the request built with role `r1` is the request
built with role `r2` with every message's role field overwritten. -/
theorem role_influences_only_message_role (r1 r2 p : String) (cf gf : Option Json) :
    buildRequest r1 p cf gf
      = (buildRequest r2 p cf gf).map
          (fun q => { q with input := q.input.map (fun m => { m with role := r1 }) }) := by
  cases hfp : fullPromptOf cf gf p with
  | error e =>
    rw [show buildRequest r1 p cf gf = .error e from by simp only [buildRequest, hfp]; rfl,
        show buildRequest r2 p cf gf = .error e from by simp only [buildRequest, hfp]; rfl]
    rfl
  | ok fp =>
    rw [show buildRequest r1 p cf gf
        = .ok ⟨selectedPreset.model, selectedPreset.temperature,
               selectedPreset.max_output_tokens, [⟨r1, [⟨"text", fp⟩]⟩]⟩ from by
      simp only [buildRequest, hfp]; rfl,
        show buildRequest r2 p cf gf
        = .ok ⟨selectedPreset.model, selectedPreset.temperature,
               selectedPreset.max_output_tokens, [⟨r2, [⟨"text", fp⟩]⟩]⟩ from by
      simp only [buildRequest, hfp]; rfl]
    rfl

/-- C10: a guardrail file that parses successfully but whose `prompt`
field is absent, null, empty, or otherwise falsy contributes nothing:
the directive becomes the empty string, exactly as for a load failure. -/
theorem falsy_guardrail_prompt_ignored (j : Json) (hf : falsyPromptField j = true) :
    guardrailOf (some j) = .str "" ∧
    ∀ (cf : Option Json) (p : String), fullPromptOf cf (some j) p = fullPromptOf cf none p := by
  have hg : guardrailOf (some j) = .str "" := by
    unfold falsyPromptField at hf
    cases hp : jsProp j "prompt" with
    | error e =>
      rw [hp] at hf
      exact Bool.noConfusion (show false = true from hf)
    | ok v =>
      rw [hp] at hf
      cases v with
      | none => simp [guardrailOf, hp, jsOr]
      | some w =>
        have hw : (!(jsTruthy w)) = true := hf
        have hw' : jsTruthy w = false := by simpa using hw
        simp [guardrailOf, hp, jsOr, hw']
  refine ⟨hg, fun cf p => ?_⟩
  simp only [fullPromptOf, hg]
  rfl

/-- Closed instance of C10: a guardrail file `{"prompt": null}` leaves
the composite input the same as a missing guardrail file. -/
theorem falsy_guardrail_prompt_ignored_witness :
    fullPromptOf none (some (.obj [("prompt", .null)])) "P" = fullPromptOf none none "P" :=
  (falsy_guardrail_prompt_ignored (.obj [("prompt", .null)]) rfl).2 none "P"

end Server
